import Mathlib

/-!
Verification of the status-derivation and facade logic of the
`raincatcher-workflow` mediator service (`lib/mediator-service/index.js`,
provided as `src/unnamed/part_000`).

The JavaScript is shallowly embedded: plain objects become structures,
possibly-absent fields and nullable values become `Option`, the
`stepResults` plain-object mapping becomes an association list with
string keys, and asynchronous bus calls become explicit outcome values
(`BusOutcome`) supplied as inputs to the embedded functions.
-/

namespace RaincatcherWorkflow

/-- One ordered stage of a workflow; `code` is the key used to look up the
step's entry in a result's `stepResults` mapping. -/
structure Step where
  code : String
deriving Repr, DecidableEq

/-- One recorded step outcome, stored under the step's code in a result's
`stepResults` mapping. -/
structure StepResult where
  status : String
deriving Repr, DecidableEq

/-- The `stepResults` plain-object mapping of a result: string keys (step
codes) to step results, in insertion order.  Keys of a JS object are unique;
lookup takes the first entry with the key. -/
def StepResultsMap : Type := List (String × StepResult)

instance : DecidableEq StepResultsMap := by
  unfold StepResultsMap
  infer_instance

instance : Repr StepResultsMap := by
  unfold StepResultsMap
  infer_instance

/-- A result record: `workorderId` links it to a workorder, `stepResults`
is its (possibly absent/null) step-outcome mapping. -/
structure Result where
  workorderId : String
  stepResults : Option StepResultsMap
deriving Repr, DecidableEq

/-- A workorder: `assignee` may be absent/null (`none`) or present
(`some s`, falsy in JS exactly when `s` is the empty string);
`workflowId` names its workflow. -/
structure Workorder where
  assignee : Option String
  workflowId : String
deriving Repr, DecidableEq

/-- A workflow: an ordered sequence of steps. -/
structure Workflow where
  steps : List Step
deriving Repr, DecidableEq

/-- The review computed by `stepReview`: the JS number `nextStepIndex`
(an `Int`, since `_.findIndex` can produce `-1` before the remap) and the
`complete` flag. -/
structure StatusReview where
  nextStepIndex : Int
  complete : Bool
deriving Repr, DecidableEq

/-- Modelled from the spec: the four display-status enumeration values
(`CONSTANTS.STATUS.*_DISPLAY`) returned by `checkStatus`.  The constants
module is not under `src/`; the spec describes them as four distinct
display-oriented enumeration values. -/
inductive DisplayStatus where
  | COMPLETE_DISPLAY
  | UNASSIGNED_DISPLAY
  | NEW_DISPLAY
  | PENDING_DISPLAY
deriving Repr, DecidableEq

/-- Modelled from the spec: the `CONSTANTS.STATUS.COMPLETE` status value
that step entries are compared against.  The constants module is not under
`src/`; only equality/inequality of recorded step statuses with this value
matters to the logic, not the literal string. -/
def STATUS_COMPLETE : String := "complete"

/-- JS property read on the `stepResults` plain object:
`result.stepResults[code]` is the entry stored under `code`, or
`undefined` (`none`) when there is none. -/
def mapGet (m : StepResultsMap) (key : String) : Option StepResult :=
  (m.find? (fun entry => entry.1 == key)).map (fun entry => entry.2)

/-- The guard fragment `result.stepResults.length !== 0` of `stepReview`
(line 141).  `stepResults` is a plain-object mapping, so reading `length`
yields the entry stored under the key "length" (a step-result object) or
`undefined`; neither an object nor `undefined` is strictly equal (`===`)
to the number `0`, so the fragment is true for every present mapping. -/
def lengthStrictNeZero (m : StepResultsMap) : Bool :=
  match mapGet m "length" with
  | none => true
  | some _ => true

/-- The predicate passed to `_.findIndex` inside `stepReview` (line 144):
a step is the next incomplete one when its code has no entry
(`!result.stepResults[step.code]`, an `undefined` read is falsy) or its
entry's `status` differs from the COMPLETE status value. -/
def stepIncomplete (m : StepResultsMap) (step : Step) : Bool :=
  match mapGet m step.code with
  | none => true
  | some entry => entry.status != STATUS_COMPLETE

/-- The index (from the front) of the first element satisfying `p`, or
`none`: the option-valued core of lodash `_.findIndex`. -/
def findIndexAux {α : Type} (p : α → Bool) : List α → Option Nat
  | [] => none
  | x :: rest =>
    if p x then some 0 else (findIndexAux p rest).map (fun n => n + 1)

/-- lodash `_.findIndex`: the index of the first element the predicate
returns truthy for, else `-1`. -/
def jsFindIndex {α : Type} (p : α → Bool) (l : List α) : Int :=
  match findIndexAux p l with
  | some n => (n : Int)
  | none => -1

/-- `WorkflowMediatorService.prototype.stepReview` (lines 136-156).
`nextIncompleteStepIndex` starts at 0 and `complete` at false; when
`result && result.stepResults && result.stepResults.length !== 0` holds,
the steps are scanned with `_.findIndex` and a `-1` outcome is remapped
to `steps.length` with `complete = true`. -/
def stepReview (steps : List Step) (result : Option Result) : StatusReview :=
  match result with
  | none => { nextStepIndex := 0, complete := false }
  | some r =>
    match r.stepResults with
    | none => { nextStepIndex := 0, complete := false }
    | some m =>
      if lengthStrictNeZero m then
        let idx := jsFindIndex (stepIncomplete m) steps
        if idx == -1 then
          { nextStepIndex := (steps.length : Int), complete := true }
        else
          { nextStepIndex := idx, complete := false }
      else
        { nextStepIndex := 0, complete := false }

/-- JS truthiness of `workorder.assignee`: absent/null (`none`) and the
empty string are falsy, every other string is truthy. -/
def jsTruthyStr (v : Option String) : Bool :=
  match v with
  | none => false
  | some s => s != ""

/-- `WorkflowMediatorService.prototype.checkStatus` (lines 111-124): runs
`stepReview` on the workflow's steps and picks the display status with the
source's branch order (complete, then unassigned, then negative index,
then pending).  `workflow.steps.length - 1` is JS number arithmetic, hence
computed in `Int`. -/
def checkStatus (workorder : Workorder) (workflow : Workflow)
    (result : Option Result) : DisplayStatus :=
  let review := stepReview workflow.steps result
  if review.nextStepIndex ≥ (workflow.steps.length : Int) - 1 ∧
      review.complete = true then
    DisplayStatus.COMPLETE_DISPLAY
  else if jsTruthyStr workorder.assignee = false then
    DisplayStatus.UNASSIGNED_DISPLAY
  else if review.nextStepIndex < 0 then
    DisplayStatus.NEW_DISPLAY
  else
    DisplayStatus.PENDING_DISPLAY

/-- The eventual outcome of an asynchronous bus call: a rejection carrying
an (opaque) error, or a resolution carrying a value. -/
inductive BusOutcome (α : Type) where
  | failure (e : String)
  | success (v : α)
deriving Repr, DecidableEq

/-- `WorkflowMediatorService.prototype.getResultByWorkorderId`
(lines 187-193), as a function of the outcome of the `listResults` bus
call: on success, `_.find(resultsArray || [], ...)` scans the collection
(an absent/null collection is replaced by the empty list) for the first
result whose `workorderId` strictly equals the argument, and `|| null`
turns an `undefined` miss into the null sentinel (`none`); a bus failure
propagates unchanged. -/
def getResultByWorkorderId (listOutcome : BusOutcome (Option (List Result)))
    (workorderId : String) : BusOutcome (Option Result) :=
  match listOutcome with
  | BusOutcome.failure e => BusOutcome.failure e
  | BusOutcome.success arr =>
    BusOutcome.success
      ((arr.getD []).find? (fun result => result.workorderId == workorderId))

/-- The responses of the external bus, one per operation
`getWorkorderSummary` depends on: `readWorkorder` and `read` (workflow by
id) keyed by the id published, and the single `listResults` outcome that
`getResultByWorkorderId` consumes. -/
structure BusEnv where
  readWorkorder : String → BusOutcome Workorder
  readWorkflow : String → BusOutcome Workflow
  listResults : BusOutcome (Option (List Result))

/-- One bus fetch that `getWorkorderSummary` can issue, recorded to state
which calls were attempted. -/
inductive Fetch where
  | workorderFetch
  | workflowFetch
  | resultFetch
deriving Repr, DecidableEq

/-- `WorkflowMediatorService.prototype.getWorkorderSummary`
(lines 167-179): fetch the workorder; when that rejects, the `.then`
callback never runs, so neither dependent fetch is attempted and the
workorder-fetch error propagates.  On success the workflow (by
`workorder.workflowId`) and the result (by `workorderId`) are both
fetched and joined with `q.all` into the triple
`[workorder, workflow, result]`.  When both concurrent fetches fail the
surfaced error depends on timing; the embedding surfaces the workflow
fetch's error then.  The second component records the fetches issued. -/
def getWorkorderSummary (env : BusEnv) (workorderId : String) :
    BusOutcome (Workorder × Workflow × Option Result) × List Fetch :=
  match env.readWorkorder workorderId with
  | BusOutcome.failure e => (BusOutcome.failure e, [Fetch.workorderFetch])
  | BusOutcome.success workorder =>
    let workflowOutcome := env.readWorkflow workorder.workflowId
    let resultOutcome := getResultByWorkorderId env.listResults workorderId
    match workflowOutcome, resultOutcome with
    | BusOutcome.success workflow, BusOutcome.success result =>
      (BusOutcome.success (workorder, workflow, result),
        [Fetch.workorderFetch, Fetch.workflowFetch, Fetch.resultFetch])
    | BusOutcome.failure e, _ =>
      (BusOutcome.failure e,
        [Fetch.workorderFetch, Fetch.workflowFetch, Fetch.resultFetch])
    | BusOutcome.success _, BusOutcome.failure e =>
      (BusOutcome.failure e,
        [Fetch.workorderFetch, Fetch.workflowFetch, Fetch.resultFetch])

/-! ### Helper lemmas -/

/-- The guard fragment `result.stepResults.length !== 0` is true for every
present plain-object mapping. -/
theorem lengthStrictNeZero_eq_true (m : StepResultsMap) :
    lengthStrictNeZero m = true := by
  unfold lengthStrictNeZero
  cases mapGet m "length" <;> rfl

/-- `findIndexAux` misses exactly when no element satisfies the predicate. -/
theorem findIndexAux_eq_none {α : Type} (p : α → Bool) (l : List α) :
    findIndexAux p l = none ↔ ∀ x ∈ l, p x = false := by
  induction l with
  | nil => simp [findIndexAux]
  | cons x rest ih =>
    by_cases hx : p x = true
    · simp [findIndexAux, hx]
    · simp only [Bool.not_eq_true] at hx
      simp [findIndexAux, hx, ih]

/-- A hit of `findIndexAux` is a valid index whose element satisfies the
predicate while every earlier element fails it. -/
theorem findIndexAux_eq_some {α : Type} (p : α → Bool) (l : List α) (i : Nat)
    (h : findIndexAux p l = some i) :
    ∃ hi : i < l.length, p (l.get ⟨i, hi⟩) = true ∧
      ∀ j : Fin l.length, (j : Nat) < i → p (l.get j) = false := by
  induction l generalizing i with
  | nil => simp [findIndexAux] at h
  | cons x rest ih =>
    by_cases hx : p x = true
    · simp [findIndexAux, hx] at h
      subst h
      exact ⟨Nat.succ_pos _, hx, fun j hj => absurd hj (Nat.not_lt_zero _)⟩
    · simp only [Bool.not_eq_true] at hx
      simp [findIndexAux, hx] at h
      obtain ⟨i0, hi0, rfl⟩ := h
      obtain ⟨hlt, hp, hbefore⟩ := ih i0 hi0
      refine ⟨Nat.succ_lt_succ hlt, by simpa using hp, ?_⟩
      intro j hj
      match j with
      | ⟨0, _⟩ => simpa using hx
      | ⟨k + 1, hk⟩ =>
        have hk0 := hbefore ⟨k, Nat.lt_of_succ_lt_succ hk⟩
          (Nat.lt_of_succ_lt_succ hj)
        simpa using hk0

/-- When the scan guard holds, `stepReview` is the remapped `_.findIndex`
scan. -/
theorem stepReview_some_some (steps : List Step) (r : Result)
    (m : StepResultsMap) (hm : r.stepResults = some m) :
    stepReview steps (some r) =
      match findIndexAux (stepIncomplete m) steps with
      | some i => { nextStepIndex := (i : Int), complete := false }
      | none => { nextStepIndex := (steps.length : Int), complete := true } := by
  unfold stepReview jsFindIndex
  simp only [hm, lengthStrictNeZero_eq_true, if_true]
  cases hf : findIndexAux (stepIncomplete m) steps with
  | none => simp [hf]
  | some i =>
    have hne : (((i : Nat) : Int) == -1) = false := by
      simp only [beq_eq_false_iff_ne, ne_eq]
      omega
    simp [hf, hne]

/-- Shared bounds on the review: the index is between `0` and
`steps.length`, and equals `steps.length` whenever `complete` holds. -/
theorem stepReview_index_bounds (steps : List Step) (result : Option Result) :
    0 ≤ (stepReview steps result).nextStepIndex ∧
    (stepReview steps result).nextStepIndex ≤ (steps.length : Int) ∧
    ((stepReview steps result).complete = true →
      (stepReview steps result).nextStepIndex = (steps.length : Int)) := by
  match result with
  | none => simp [stepReview]
  | some r =>
    match hm : r.stepResults with
    | none => simp [stepReview, hm]
    | some m =>
      rw [stepReview_some_some steps r m hm]
      cases hf : findIndexAux (stepIncomplete m) steps with
      | none => simp
      | some i =>
        obtain ⟨hi, -, -⟩ := findIndexAux_eq_some _ _ _ hf
        simp only
        refine ⟨by omega, by omega, ?_⟩
        intro hc
        simp at hc

/-- `List.find?` misses when every element fails the predicate. -/
theorem find?_eq_none_of_all {α : Type} (p : α → Bool) (l : List α)
    (h : ∀ x ∈ l, p x = false) : l.find? p = none := by
  induction l with
  | nil => rfl
  | cons x rest ih =>
    have hx := h x (List.mem_cons_self x rest)
    rw [List.find?_cons_of_neg _ (by simp [hx])]
    exact ih (fun y hy => h y (List.mem_cons_of_mem x hy))

/-- `List.find?` returns the element at the first index satisfying the
predicate. -/
theorem find?_eq_some_of_first {α : Type} (p : α → Bool) (l : List α)
    (i : Fin l.length) (hp : p (l.get i) = true)
    (hbefore : ∀ j : Fin l.length, (j : Nat) < (i : Nat) → p (l.get j) = false) :
    l.find? p = some (l.get i) := by
  induction l with
  | nil => exact absurd i.isLt (Nat.not_lt_zero _)
  | cons x rest ih =>
    match i, hp, hbefore with
    | ⟨0, h0⟩, hp, hbefore =>
      rw [List.find?_cons_of_pos _ (by simpa using hp)]
      simp
    | ⟨k + 1, hk⟩, hp, hbefore =>
      have hx : p x = false := by
        have h0 := hbefore ⟨0, Nat.succ_pos _⟩ (Nat.succ_pos k)
        simpa using h0
      rw [List.find?_cons_of_neg _ (by simp [hx])]
      have hrest := ih ⟨k, Nat.lt_of_succ_lt_succ hk⟩ (by simpa using hp)
        (fun j hj => by
          have hjj := hbefore ⟨(j : Nat) + 1, Nat.succ_lt_succ j.isLt⟩
            (Nat.succ_lt_succ hj)
          simpa using hjj)
      simpa using hrest

/-! ### Claim theorems -/

/-- C1 (counterexample): the claim asserts that an empty `stepResults`
mapping always yields `{ nextStepIndex: 0, complete: false }`, including
for empty `steps`; but at `steps = []`,
`result = { stepResults: {} }` the code returns `complete := true`,
because the guard `result.stepResults.length !== 0` is true for a
plain-object mapping (its `length` read is `undefined`, and
`undefined !== 0`), so the scan runs and finds no incomplete step. -/
theorem stepReview_empty_map_empty_steps_cex :
    stepReview [] (some { workorderId := "w", stepResults := some [] }) =
      { nextStepIndex := 0, complete := true } ∧
    stepReview [] (some { workorderId := "w", stepResults := some [] }) ≠
      { nextStepIndex := 0, complete := false } := by
  decide

/-- C1 (amended): `stepReview` returns `{ nextStepIndex: 0, complete: false }`
whenever `result` is absent or `result.stepResults` is absent, and also when
`result.stepResults` has zero entries provided `steps` is non-empty; when
`stepResults` has zero entries and `steps` is empty, it instead returns
`{ nextStepIndex: 0, complete: true }`, because the `length !== 0` guard
passes for every present mapping and the scan of zero steps finds no
incomplete step. -/
theorem stepReview_not_started (steps : List Step) (r : Result) :
    stepReview steps none = { nextStepIndex := 0, complete := false } ∧
    (r.stepResults = none →
      stepReview steps (some r) = { nextStepIndex := 0, complete := false }) ∧
    (r.stepResults = some [] → steps ≠ [] →
      stepReview steps (some r) = { nextStepIndex := 0, complete := false }) ∧
    (r.stepResults = some [] → steps = [] →
      stepReview steps (some r) = { nextStepIndex := 0, complete := true }) := by
  refine ⟨rfl, ?_, ?_, ?_⟩
  · intro hm
    simp [stepReview, hm]
  · intro hm hsteps
    rw [stepReview_some_some steps r [] hm]
    match steps, hsteps with
    | x :: rest, _ =>
      have hx : stepIncomplete [] x = true := rfl
      simp [findIndexAux, hx]
  · intro hm hsteps
    subst hsteps
    rw [stepReview_some_some [] r [] hm]
    rfl

/-- C1 (witness for the amended claim): with one step and an
empty-but-present `stepResults` mapping, the review is
`{ nextStepIndex: 0, complete: false }`. -/
theorem stepReview_not_started_witness :
    stepReview [{ code := "a" }]
        (some { workorderId := "w", stepResults := some [] }) =
      { nextStepIndex := 0, complete := false } :=
  (stepReview_not_started [{ code := "a" }]
    { workorderId := "w", stepResults := some [] }).2.2.1 rfl (by decide)

/-- C2: for a result with at least one `stepResults` entry, the review is
either the position of the first step whose code has no entry or whose
entry's status differs from the COMPLETE value (with `complete = false`),
or, when no such step exists, `complete = true` with
`nextStepIndex = steps.length` (which is `0` for empty `steps`). -/
theorem stepReview_scan_spec (steps : List Step) (r : Result)
    (m : StepResultsMap) (hm : r.stepResults = some m) (_hne : m ≠ []) :
    (∃ i : Fin steps.length, stepIncomplete m (steps.get i) = true ∧
      (∀ j : Fin steps.length, (j : Nat) < (i : Nat) →
        stepIncomplete m (steps.get j) = false) ∧
      stepReview steps (some r) =
        { nextStepIndex := ((i : Nat) : Int), complete := false }) ∨
    ((∀ s ∈ steps, stepIncomplete m s = false) ∧
      stepReview steps (some r) =
        { nextStepIndex := (steps.length : Int), complete := true }) := by
  rw [stepReview_some_some steps r m hm]
  cases hf : findIndexAux (stepIncomplete m) steps with
  | none =>
    exact Or.inr ⟨(findIndexAux_eq_none _ _).mp hf, rfl⟩
  | some i =>
    obtain ⟨hi, hp, hbefore⟩ := findIndexAux_eq_some _ _ _ hf
    exact Or.inl ⟨⟨i, hi⟩, hp, hbefore, rfl⟩

/-- C2 (witness): the spec's second test vector — two steps, only the
first complete — lands in the scan characterization. -/
theorem stepReview_scan_spec_witness :
    (∃ i : Fin ([{ code := "a" }, { code := "b" }] : List Step).length,
      stepIncomplete [("a", { status := "complete" })]
          (([{ code := "a" }, { code := "b" }] : List Step).get i) = true ∧
      (∀ j : Fin ([{ code := "a" }, { code := "b" }] : List Step).length,
        (j : Nat) < (i : Nat) →
        stepIncomplete [("a", { status := "complete" })]
          (([{ code := "a" }, { code := "b" }] : List Step).get j) = false) ∧
      stepReview [{ code := "a" }, { code := "b" }]
          (some { workorderId := "w",
                  stepResults := some [("a", { status := "complete" })] }) =
        { nextStepIndex := ((i : Nat) : Int), complete := false }) ∨
    ((∀ s ∈ ([{ code := "a" }, { code := "b" }] : List Step),
        stepIncomplete [("a", { status := "complete" })] s = false) ∧
      stepReview [{ code := "a" }, { code := "b" }]
          (some { workorderId := "w",
                  stepResults := some [("a", { status := "complete" })] }) =
        { nextStepIndex :=
            (([{ code := "a" }, { code := "b" }] : List Step).length : Int),
          complete := true }) :=
  stepReview_scan_spec [{ code := "a" }, { code := "b" }]
    { workorderId := "w", stepResults := some [("a", { status := "complete" })] }
    [("a", { status := "complete" })] rfl (by decide)

/-- C3: whenever the review of the workflow's steps is complete and its
index reaches `steps.length - 1`, `checkStatus` returns the COMPLETE
display status, whatever the workorder's assignee is. -/
theorem checkStatus_complete_of_review (wo : Workorder) (wf : Workflow)
    (res : Option Result)
    (hc : (stepReview wf.steps res).complete = true)
    (hi : (stepReview wf.steps res).nextStepIndex ≥ (wf.steps.length : Int) - 1) :
    checkStatus wo wf res = DisplayStatus.COMPLETE_DISPLAY := by
  unfold checkStatus
  rw [if_pos ⟨hi, hc⟩]

/-- C3 (witness): a single fully complete step with an absent assignee
still yields the COMPLETE display status. -/
theorem checkStatus_complete_of_review_witness :
    checkStatus { assignee := none, workflowId := "wf1" }
        { steps := [{ code := "a" }] }
        (some { workorderId := "w",
                stepResults := some [("a", { status := "complete" })] }) =
      DisplayStatus.COMPLETE_DISPLAY :=
  checkStatus_complete_of_review { assignee := none, workflowId := "wf1" }
    { steps := [{ code := "a" }] }
    (some { workorderId := "w",
            stepResults := some [("a", { status := "complete" })] })
    (by decide) (by decide)

/-- C4: the review index is always between `0` and `steps.length`
inclusive, and equals `steps.length` whenever `complete` is true. -/
theorem stepReview_index_invariant (steps : List Step) (result : Option Result) :
    0 ≤ (stepReview steps result).nextStepIndex ∧
    (stepReview steps result).nextStepIndex ≤ (steps.length : Int) ∧
    ((stepReview steps result).complete = true →
      (stepReview steps result).nextStepIndex = (steps.length : Int)) :=
  stepReview_index_bounds steps result

/-- C4 (witness): on a fully complete single-step review, the implication
of the invariant pins the index to `steps.length = 1`. -/
theorem stepReview_index_invariant_witness :
    (stepReview [{ code := "a" }]
        (some { workorderId := "w",
                stepResults := some [("a", { status := "complete" })] })).nextStepIndex =
      ((1 : Nat) : Int) :=
  (stepReview_index_invariant [{ code := "a" }]
    (some { workorderId := "w",
            stepResults := some [("a", { status := "complete" })] })).2.2
    (by decide)

/-- C5: `checkStatus` never takes its `nextStepIndex < 0` branch —
`stepReview` keeps the index non-negative, so the outcome is always one of
the COMPLETE, UNASSIGNED or PENDING display statuses and never NEW. -/
theorem checkStatus_never_new (wo : Workorder) (wf : Workflow)
    (res : Option Result) :
    checkStatus wo wf res = DisplayStatus.COMPLETE_DISPLAY ∨
    checkStatus wo wf res = DisplayStatus.UNASSIGNED_DISPLAY ∨
    checkStatus wo wf res = DisplayStatus.PENDING_DISPLAY := by
  obtain ⟨hnn, -, -⟩ := stepReview_index_bounds wf.steps res
  unfold checkStatus
  dsimp only
  split
  · exact Or.inl rfl
  · split
    · exact Or.inr (Or.inl rfl)
    · split
      · next hlt => exact absurd hlt (by omega)
      · exact Or.inr (Or.inr rfl)

/-- C6: with a falsy assignee and the COMPLETE branch condition failing,
`checkStatus` returns the UNASSIGNED display status. -/
theorem checkStatus_unassigned (wo : Workorder) (wf : Workflow)
    (res : Option Result)
    (ha : jsTruthyStr wo.assignee = false)
    (hnc : ¬((stepReview wf.steps res).nextStepIndex ≥ (wf.steps.length : Int) - 1 ∧
      (stepReview wf.steps res).complete = true)) :
    checkStatus wo wf res = DisplayStatus.UNASSIGNED_DISPLAY := by
  unfold checkStatus
  rw [if_neg hnc, if_pos ha]

/-- C6 (witness): unassigned workorder, two steps with the first already
complete — the status is UNASSIGNED even though a step is done. -/
theorem checkStatus_unassigned_witness :
    checkStatus { assignee := none, workflowId := "wf1" }
        { steps := [{ code := "a" }, { code := "b" }] }
        (some { workorderId := "w",
                stepResults := some [("a", { status := "complete" })] }) =
      DisplayStatus.UNASSIGNED_DISPLAY :=
  checkStatus_unassigned { assignee := none, workflowId := "wf1" }
    { steps := [{ code := "a" }, { code := "b" }] }
    (some { workorderId := "w",
            stepResults := some [("a", { status := "complete" })] })
    (by decide) (by decide)

/-- C7: with a truthy assignee, the COMPLETE branch condition failing and a
non-negative review index, `checkStatus` returns the PENDING display
status. -/
theorem checkStatus_pending (wo : Workorder) (wf : Workflow)
    (res : Option Result)
    (ha : jsTruthyStr wo.assignee = true)
    (hnc : ¬((stepReview wf.steps res).nextStepIndex ≥ (wf.steps.length : Int) - 1 ∧
      (stepReview wf.steps res).complete = true))
    (hnn : 0 ≤ (stepReview wf.steps res).nextStepIndex) :
    checkStatus wo wf res = DisplayStatus.PENDING_DISPLAY := by
  unfold checkStatus
  rw [if_neg hnc, if_neg (by simp [ha]), if_neg (by omega)]

/-- C7 (witness): assigned workorder, two steps with only the first
complete — the status is PENDING. -/
theorem checkStatus_pending_witness :
    checkStatus { assignee := some "bob", workflowId := "wf1" }
        { steps := [{ code := "a" }, { code := "b" }] }
        (some { workorderId := "w",
                stepResults := some [("a", { status := "complete" })] }) =
      DisplayStatus.PENDING_DISPLAY :=
  checkStatus_pending { assignee := some "bob", workflowId := "wf1" }
    { steps := [{ code := "a" }, { code := "b" }] }
    (some { workorderId := "w",
            stepResults := some [("a", { status := "complete" })] })
    (by decide) (by decide) (by decide)

/-- C8: `getResultByWorkorderId` propagates a bus failure unchanged,
resolves to the null sentinel when no listed result's `workorderId`
matches, and resolves to the exact first matching result otherwise. -/
theorem getResultByWorkorderId_spec (e : String) (l : List Result)
    (wid : String) :
    getResultByWorkorderId (BusOutcome.failure e) wid = BusOutcome.failure e ∧
    ((∀ r ∈ l, (r.workorderId == wid) = false) →
      getResultByWorkorderId (BusOutcome.success (some l)) wid =
        BusOutcome.success none) ∧
    (∀ i : Fin l.length, (l.get i).workorderId = wid →
      (∀ j : Fin l.length, (j : Nat) < (i : Nat) →
        ((l.get j).workorderId == wid) = false) →
      getResultByWorkorderId (BusOutcome.success (some l)) wid =
        BusOutcome.success (some (l.get i))) := by
  refine ⟨rfl, ?_, ?_⟩
  · intro hall
    show BusOutcome.success
        (l.find? (fun result => result.workorderId == wid)) =
      BusOutcome.success none
    rw [find?_eq_none_of_all _ l hall]
  · intro i hp hbefore
    show BusOutcome.success
        (l.find? (fun result => result.workorderId == wid)) =
      BusOutcome.success (some (l.get i))
    rw [find?_eq_some_of_first _ l i (by simp only [beq_iff_eq]; exact hp)
      hbefore]

/-- C8 (witness): among three listed results with two sharing the wanted
id, the first matching record (and exactly that record) is returned. -/
theorem getResultByWorkorderId_spec_witness :
    getResultByWorkorderId
        (BusOutcome.success (some
          [{ workorderId := "w1", stepResults := none },
           { workorderId := "w2", stepResults := none },
           { workorderId := "w2", stepResults := some [] }])) "w2" =
      BusOutcome.success (some { workorderId := "w2", stepResults := none }) :=
  (getResultByWorkorderId_spec "err"
    [{ workorderId := "w1", stepResults := none },
     { workorderId := "w2", stepResults := none },
     { workorderId := "w2", stepResults := some [] }] "w2").2.2
    ⟨1, by decide⟩ rfl (by decide)

/-- C9: when the workorder fetch fails, `getWorkorderSummary` rejects with
exactly that error and issues no dependent fetch; when the workorder fetch
and both dependent fetches succeed, it resolves to the triple
`[workorder, workflow, result]` in that order, the workflow having been
fetched by `workorder.workflowId` and the result by the given
`workorderId`. -/
theorem getWorkorderSummary_spec (env : BusEnv) (wid : String) :
    (∀ e, env.readWorkorder wid = BusOutcome.failure e →
      getWorkorderSummary env wid =
        (BusOutcome.failure e, [Fetch.workorderFetch])) ∧
    (∀ wo wf res, env.readWorkorder wid = BusOutcome.success wo →
      env.readWorkflow wo.workflowId = BusOutcome.success wf →
      getResultByWorkorderId env.listResults wid = BusOutcome.success res →
      getWorkorderSummary env wid =
        (BusOutcome.success (wo, wf, res),
          [Fetch.workorderFetch, Fetch.workflowFetch, Fetch.resultFetch])) := by
  constructor
  · intro e he
    unfold getWorkorderSummary
    rw [he]
  · intro wo wf res hwo hwf hres
    unfold getWorkorderSummary
    rw [hwo]
    dsimp only
    rw [hwf, hres]

/-- Bus responses for the C9 witness: every workorder read resolves to one
assigned workorder on workflow "wf1", every workflow read resolves to a
one-step workflow, and the result listing holds a single result for
workorder "wo1". -/
def demoEnv : BusEnv where
  readWorkorder := fun _ =>
    BusOutcome.success { assignee := some "bob", workflowId := "wf1" }
  readWorkflow := fun _ => BusOutcome.success { steps := [{ code := "a" }] }
  listResults :=
    BusOutcome.success (some [{ workorderId := "wo1", stepResults := none }])

/-- C9 (witness): on the demo bus, the summary of workorder "wo1" is the
triple of its workorder, workflow and result, with all three fetches
issued. -/
theorem getWorkorderSummary_spec_witness :
    getWorkorderSummary demoEnv "wo1" =
      (BusOutcome.success
        ({ assignee := some "bob", workflowId := "wf1" },
         { steps := [{ code := "a" }] },
         some { workorderId := "wo1", stepResults := none }),
        [Fetch.workorderFetch, Fetch.workflowFetch, Fetch.resultFetch]) :=
  (getWorkorderSummary_spec demoEnv "wo1").2
    { assignee := some "bob", workflowId := "wf1" }
    { steps := [{ code := "a" }] }
    (some { workorderId := "wo1", stepResults := none })
    rfl rfl rfl

/-- C10: when the `listResults` bus call resolves to a null/undefined
collection, `getResultByWorkorderId` still resolves — to the null
not-found sentinel — because `resultsArray || []` turns the absent
collection into an empty scan. -/
theorem getResultByWorkorderId_null_collection (wid : String) :
    getResultByWorkorderId (BusOutcome.success none) wid =
      BusOutcome.success none := rfl

end RaincatcherWorkflow
